import Mathlib

/-!
Verification of the TonerTrack printer status collector and classifier
(`it_tools/tonertrack/snmp_utils.py` and `it_tools/tonertrack/gui.py`).

The embedding is shallow: Python dicts over string keys become insertion
ordered association lists (`List (String × String)`) with a last-write-wins
upsert, Python strings become Lean `String` (ASCII case folding; Python's
`str.lower`/`str.strip` are Unicode-aware but all data relevant here is
ASCII), and Python `int()` parsing is modelled by `pyInt` below.

The expression `round((level_int / max_int) * 100)` is evaluated by the
program on IEEE-754 binary64 doubles, and its half-way behaviour at
ordinary inputs (e.g. 23/40 giving 57, 109/200 giving 55) is decided by
the float representation error, not by exact-value banker's rounding. It
is therefore modelled bit-exactly: `pyFloatPercent` performs the
correctly rounded (round-to-nearest, ties-to-even) binary64 division,
the correctly rounded binary64 multiplication by 100, and Python's
`round` (half-to-even to an integer) on the resulting double, with every
double represented exactly as an integer significand times a power of
two. The model was checked against CPython on the boundary and random
inputs appearing in the example lemmas below.
-/

namespace TonerTrack

/-- Boolean test that `pat` is a prefix of `l` (used to model Python's
`str.startswith` and substring search). -/
def hasPrefixL : List Char → List Char → Bool
  | [], _ => true
  | _ :: _, [] => false
  | a :: as, b :: bs => a == b && hasPrefixL as bs

/-- Boolean substring search on character lists, modelling Python's
`sub in s` (an empty pattern is contained in every string). -/
def containsSub : List Char → List Char → Bool
  | [], pat => pat.isEmpty
  | c :: t, pat => hasPrefixL pat (c :: t) || containsSub t pat

/-- Python `sub in s` on strings. -/
def strContainsSub (s sub : String) : Bool := containsSub s.data sub.data

/-- Python `s.startswith(pre)`. -/
def strStartsWith (s pre : String) : Bool := hasPrefixL pre.data s.data

/-- Python `s.endswith(suf)`. -/
def strEndsWith (s suf : String) : Bool :=
  hasPrefixL suf.data.reverse s.data.reverse

/-- Python `s.strip()` (ASCII whitespace; only ASCII data occurs here). -/
def strTrim (s : String) : String :=
  ⟨((s.data.dropWhile Char.isWhitespace).reverse.dropWhile Char.isWhitespace).reverse⟩

/-- Python `s.lower()` (ASCII case folding; only ASCII data occurs here). -/
def strToLower (s : String) : String :=
  ⟨s.data.map Char.toLower⟩

/-- Python `s.rstrip("%")`: drop every trailing `%` character. -/
def rstripPercent (s : String) : String :=
  ⟨(s.data.reverse.dropWhile (fun c => c == '%')).reverse⟩

/-- Value of a digit string as accepted by Python `int()`: digits with
single underscores allowed between digits (`"1_0"` is 10, `"1__0"` and
trailing or leading underscores are rejected). The accumulator holds the
value of the digits already consumed. -/
def pyDigitsVal : Nat → List Char → Option Nat
  | acc, [] => some acc
  | acc, c :: cs =>
    if c.isDigit then pyDigitsVal (10 * acc + (c.toNat - 48)) cs
    else if c == '_' then
      match cs with
      | [] => none
      | d :: ds => if d.isDigit then pyDigitsVal (10 * acc + (d.toNat - 48)) ds else none
    else none

/-- Python `int(s)` on a string: optional surrounding whitespace, optional
sign, then a digit string per `pyDigitsVal`; `none` models `ValueError`.
(`strTrim` strips ASCII whitespace where Python strips Unicode
whitespace; only ASCII data occurs here.) -/
def pyInt (s : String) : Option Int :=
  match (strTrim s).data with
  | [] => none
  | c :: cs =>
    if c == '-' then
      match cs with
      | [] => none
      | d :: ds =>
        if d.isDigit then (pyDigitsVal (d.toNat - 48) ds).map (fun n => -(n : Int)) else none
    else if c == '+' then
      match cs with
      | [] => none
      | d :: ds =>
        if d.isDigit then (pyDigitsVal (d.toNat - 48) ds).map (fun n => (n : Int)) else none
    else if c.isDigit then (pyDigitsVal (c.toNat - 48) cs).map (fun n => (n : Int))
    else none

/-- Round-half-to-even of the exact rational `num / den` (for `den > 0`)
to an integer: the rounding primitive from which the binary64 model
below is built (each IEEE rounding step and Python's `round` on a float
are instances of it at a suitable scaling). -/
def pyRound_frac (num den : Int) : Int :=
  let q := Int.fdiv num den
  let r := num - q * den
  if 2 * r < den then q
  else if den < 2 * r then q + 1
  else if q % 2 = 0 then q else q + 1

/-- Fuelled binary logarithm: `log2fuel f n` is `⌊log₂ n⌋` whenever
`n ≤ f` (each step halves `n`, so fuel `n` always suffices); written
with explicit fuel so that it is structural and kernel-reducible. -/
def log2fuel : Nat → Nat → Nat
  | 0, _ => 0
  | f + 1, n => if 2 ≤ n then log2fuel f (n / 2) + 1 else 0

/-- `⌊log₂ n⌋` for positive `n` (0 for `n = 0`). -/
def natLog2 (n : Nat) : Nat := log2fuel n n

/-- `2 ^ k` as an integer, computed through `Nat.pow` (semantically equal
to `(2 : Int) ^ k`, see `pow2_eq`). -/
def pow2 (k : Nat) : Int := ((2 ^ k : Nat) : Int)

/-- Decides `2 ^ e ≤ a / b` for positive `a`, `b` and a signed exponent
`e`, by cross-multiplying so that only integer powers of two occur. -/
def le2pow (e : Int) (a b : Int) : Bool :=
  if 0 ≤ e then decide (b * pow2 e.toNat ≤ a) else decide (b ≤ a * pow2 (-e).toNat)

/-- `⌊log₂ (a / b)⌋` for positive `a`, `b`: `natLog2` of numerator and
denominator gives a first estimate `e₀` off by at most one, corrected by
one direct comparison. -/
def ratLog2 (a b : Int) : Int :=
  let e0 : Int := (natLog2 a.toNat : Int) - (natLog2 b.toNat : Int)
  if le2pow e0 a b then e0 else e0 - 1

/-- Round-half-to-even of `(a / b) / 2 ^ u` for a signed scale `u`:
the scaled significand of `a / b` on the grid of multiples of `2 ^ u`. -/
def roundAtExp (a b : Int) (u : Int) : Int :=
  if 0 ≤ u then pyRound_frac a (b * pow2 u.toNat)
  else pyRound_frac (a * pow2 (-u).toNat) b

/-- The IEEE-754 binary64 ulp exponent at magnitude `a / b`:
`⌊log₂(a/b)⌋ - 52` for normal magnitudes, clamped below at the subnormal
grid `2 ^ (-1074)`. Rounding `a / b` to the nearest multiple of
`2 ^ fpExp a b` (ties to even) is exactly IEEE round-to-nearest for the
finite, non-overflowing range used here. -/
def fpExp (a b : Int) : Int :=
  max (ratLog2 a b - 52) (-1074)

/-- `round((l / m) * 100)` exactly as CPython evaluates it for positive
integers `l`, `m` whose quotient stays in the finite double range (always
the case below, where `l ≤ m` or both are small): CPython's int/int true
division returns the correctly rounded double of the exact quotient, the
multiplication by 100 is again correctly rounded, and `round` rounds the
resulting double (represented exactly as `d * 2 ^ u`) half-to-even to an
integer. -/
def pyFloatPercentPos (l m : Int) : Int :=
  let u1 := fpExp l m
  let d1 := roundAtExp l m u1
  let a2 := if 0 ≤ u1 then d1 * 100 * pow2 u1.toNat else d1 * 100
  let b2 := if 0 ≤ u1 then 1 else pow2 (-u1).toNat
  let u2 := fpExp a2 b2
  let d2 := roundAtExp a2 b2 u2
  if 0 ≤ u2 then d2 * pow2 u2.toNat else pyRound_frac d2 (pow2 (-u2).toNat)

/-- `round((l / m) * 100)` in binary64 semantics for any integer level
and positive maximum: IEEE division, IEEE multiplication and Python's
`round` are all symmetric under negation, so negative levels reduce to
the positive case (and `l = 0` gives exactly 0). -/
def pyFloatPercent (l m : Int) : Int :=
  if 0 ≤ l then pyFloatPercentPos l m else -(pyFloatPercentPos (-l) m)

/-- The percent string computed for one complete consumable slot, from
`get_printer_status_async` (snmp_utils.py lines 98-103): `level == -2`
is the "Unknown" sentinel, a positive maximum yields
`round((level / max) * 100)` in the program's binary64 semantics with a
trailing `%`, any other maximum yields "N/A". -/
def slot_percent (level maxv : Int) : String :=
  if level = -2 then "Unknown"
  else if 0 < maxv then toString (pyFloatPercent level maxv) ++ "%"
  else "N/A"

/-- The three consumable dictionaries a slot can be filed into. -/
inductive SlotCategory where
  | toner
  | drum
  | other
  deriving DecidableEq

/-- Category a complete slot's name is filed under, from
`get_printer_status_async` (snmp_utils.py lines 107-114):
`label = name.strip()`, then `"toner" in label.lower()` is checked before
`"drum" in label.lower()`, and everything else goes to the misc dict. -/
def categorize (name : String) : SlotCategory :=
  let label := strTrim name
  if strContainsSub (strToLower label) "toner" then SlotCategory.toner
  else if strContainsSub (strToLower label) "drum" then SlotCategory.drum
  else SlotCategory.other

/-- First-match lookup in an association list, modelling Python
`dict.get` on an insertion-ordered dict whose keys are unique. -/
def assocLookup : List (String × String) → String → Option String
  | [], _ => none
  | (k, v) :: t, key => if k = key then some v else assocLookup t key

/-- Python `d[k] = v` on an insertion-ordered dict: replace the value at
an existing key in place, otherwise append the new pair at the end. -/
def dictUpsert : List (String × String) → String → String → List (String × String)
  | [], k, v => [(k, v)]
  | (k', v') :: t, k, v =>
    if k' = k then (k', v) :: t else (k', v') :: dictUpsert t k v

/-- Number of entries carrying a given key. -/
def countKey : List (String × String) → String → Nat
  | [], _ => 0
  | (k, _) :: t, d => (if k = d then 1 else 0) + countKey t d

/-- One `while True` iteration chain of `snmp_walk` (snmp_utils.py lines
37-60). `g` models the device's get-next responder (`next_cmd` with a
single var-bind per response): `none` stands for an error indication or
end-of-MIB, `some (oid, val)` for the next row. The walk records the row
and continues from it while the returned oid still starts with
`oid_base`, and stops at the first out-of-prefix row or error. `fuel`
bounds the otherwise unbounded Python loop; every claim proved below is
insensitive to extra fuel. -/
def snmp_walk_go (g : String → Option (String × String)) (oid_base : String) :
    Nat → String → List (String × String) → List (String × String)
  | 0, _, results => results
  | fuel + 1, cur, results =>
    match g cur with
    | none => results
    | some (oid, val) =>
      if strStartsWith oid oid_base then
        snmp_walk_go g oid_base fuel oid (dictUpsert results oid val)
      else results

/-- `snmp_walk ip oid_base`: start the get-next chain at `oid_base` with
an empty result dict. -/
def snmp_walk (g : String → Option (String × String)) (oid_base : String)
    (fuel : Nat) : List (String × String) :=
  snmp_walk_go g oid_base fuel oid_base []

/-- Severity code to label map from `get_printer_status_async`
(snmp_utils.py lines 124-128): `{"3": "Critical", "4": "Warning",
"5": "Info"}.get(code, code)`. -/
def mapSeverityCode (code : String) : String :=
  if code = "3" then "Critical"
  else if code = "4" then "Warning"
  else if code = "5" then "Info"
  else code

/-- Python `s.replace(pat, rep)` on character lists, with fuel equal to
the length of the subject (each step consumes at least one character, so
that fuel always suffices; an empty pattern is returned unchanged, a case
that never arises here). -/
def replaceAllAux (pat rep : List Char) : Nat → List Char → List Char
  | 0, l => l
  | fuel + 1, l =>
    match l with
    | [] => []
    | c :: cs =>
      if pat.isEmpty then c :: cs
      else if hasPrefixL pat (c :: cs) then
        rep ++ replaceAllAux pat rep fuel ((c :: cs).drop pat.length)
      else c :: replaceAllAux pat rep fuel cs

/-- Python `s.replace(pat, rep)` on strings. -/
def replaceAll (s pat rep : String) : String :=
  ⟨replaceAllAux pat.data rep.data s.data.length s.data⟩

/-- Row suffix extracted from a description-walk oid, from
`get_printer_status_async` (snmp_utils.py line 122):
`oid.replace("1.3.6.1.2.1.43.18.1.1.8.", "")`. -/
def suffixOf (oid : String) : String :=
  replaceAll oid "1.3.6.1.2.1.43.18.1.1.8." ""

/-- Severity label attached to a description row, from
`get_printer_status_async` (snmp_utils.py lines 123-128): look the shared
row suffix up in the severity walk, default `"Unknown"`, then map the
code through `mapSeverityCode`. -/
def severityLabelFor (sevWalk : List (String × String)) (oid : String) : String :=
  mapSeverityCode ((assocLookup sevWalk ("1.3.6.1.2.1.43.18.1.1.2." ++ suffixOf oid)).getD "Unknown")

/-- Accumulator form of the `errors` assembly loop in
`get_printer_status_async` (snmp_utils.py lines 120-129): for each
description row, upsert `errors[desc] = severity_label`. -/
def build_errors_go (sevWalk : List (String × String)) :
    List (String × String) → List (String × String) → List (String × String)
  | errors, [] => errors
  | errors, row :: rows =>
    build_errors_go sevWalk (dictUpsert errors row.2 (severityLabelFor sevWalk row.1)) rows

/-- The assembled `errors` dict (description → severity label) from the
two alert walks. -/
def build_errors (descWalk sevWalk : List (String × String)) : List (String × String) :=
  build_errors_go sevWalk [] descWalk

/-- The oid of the last description row carrying description `d`
(the row whose severity wins under dict upsert). -/
def lastOidWith : List (String × String) → String → Option String
  | [], _ => none
  | row :: rows, d =>
    match lastOidWith rows d with
    | some o => some o
    | none => if row.2 = d then some row.1 else none

/-- Paper-out pattern from `_evaluate_status` (gui.py lines 335-342):
case-insensitive substring tests on the alert description. -/
def is_paper_out (desc : String) : Bool :=
  let d := strToLower desc
  strContainsSub d "no paper"
  || strContainsSub d "paper out"
  || (strContainsSub d "paper"
      && (strContainsSub d "out" || strContainsSub d "empty" || strContainsSub d "tray"))
  || strContainsSub d "input tray empty"

/-- Toner-warning pattern from `_evaluate_status` (gui.py lines 344-347):
the description contains "toner" and one of "low" / "replace" / "%". -/
def is_toner_warning_desc (desc : String) : Bool :=
  let d := strToLower desc
  strContainsSub d "toner"
  && (strContainsSub d "low" || strContainsSub d "replace" || strContainsSub d "%")

/-- Numeric value of a consumable percent string per the check in
`any_toner_percent_warning` (gui.py lines 352-358): the string must end
with `%`, then `int(v.rstrip("%"))` must parse; `none` models the guard
failing or the bare `except: pass`. -/
def percent_value (v : String) : Option Int :=
  if strEndsWith v "%" then pyInt (rstripPercent v) else none

/-- The per-value body of `any_toner_percent_warning` (gui.py lines
351-358): true when the value is a percent string whose integer is at
most the low-level threshold 5. -/
def low_percent (v : String) : Bool :=
  match percent_value v with
  | some n => decide (n ≤ 5)
  | none => false

/-- `any_toner_percent_warning` (gui.py lines 349-359) over one
consumable dict: some value is a low percent. -/
def any_toner_percent_warning (d : List (String × String)) : Bool :=
  d.any (fun kv => low_percent kv.2)

/-- The dict returned by `get_printer_status_async` for one poll, in the
parts `_evaluate_status` reads: the three consumable dicts and the
`Errors` dict (description → severity label). A fresh snapshot carries no
`status` key. -/
structure Snapshot where
  tonerCartridges : List (String × String)
  drumUnits : List (String × String)
  other : List (String × String)
  errors : List (String × String)

/-- A printer-info dict as seen by `_evaluate_status`: a stored device
record additionally may carry a `status` key (set to `"Offline"` by the
failed-poll branch of `_poll_all_printers`). -/
structure PrinterInfo where
  statusKey : Option String
  tonerCartridges : List (String × String)
  drumUnits : List (String × String)
  other : List (String × String)
  errors : List (String × String)

/-- View a fresh snapshot as the dict `_evaluate_status` receives: no
`status` key present. -/
def Snapshot.toInfo (s : Snapshot) : PrinterInfo :=
  { statusKey := none
    tonerCartridges := s.tonerCartridges
    drumUnits := s.drumUnits
    other := s.other
    errors := s.errors }

/-- `_evaluate_status` (gui.py lines 325-378). Order of tests: the
`status == "Offline"` short-circuit, then the loop returning `"Error"`
at the first alert matching neither pattern, then the warning
disjunction over the three consumable dicts and toner-warning
descriptions, else `"OK"`. -/
def evaluate_status (p : PrinterInfo) : String :=
  if p.statusKey = some "Offline" then "Offline"
  else if p.errors.any (fun e => !is_paper_out e.1 && !is_toner_warning_desc e.1) then "Error"
  else if any_toner_percent_warning p.tonerCartridges
       || any_toner_percent_warning p.drumUnits
       || any_toner_percent_warning p.other
       || p.errors.any (fun e => is_toner_warning_desc e.1) then "Warning"
  else "OK"

/-- Per-device body of `_poll_all_printers` (gui.py lines 294-319): when
`get_printer_status(ip)` returns a snapshot (`Except.ok`), the stored
record takes the fresh snapshot's dicts and
`status := _evaluate_status(snapshot)`; when it raises (`Except.error`,
the `except` branch), the cached record is kept with its `status` key
overwritten to `"Offline"`. Note that a transport failure does NOT raise:
`snmp_get` and `snmp_walk` catch every exception and degrade to
`None`/`{}`, so an unreachable device arrives here as `Except.ok` with an
all-placeholder snapshot (see `collect` and `deadDevice` below). -/
def pollUpdate (cached : PrinterInfo) (result : Except Unit Snapshot) : PrinterInfo :=
  match result with
  | Except.error _ => { cached with statusKey := some "Offline" }
  | Except.ok s => { s.toInfo with statusKey := some (evaluate_status s.toInfo) }

/-- A remote device as the collector sees it: `get` answers one
`snmp_get` (`none` models a timeout, error indication or any caught
exception — snmp_utils.py lines 18-25), `next` answers one get-next
exchange of `snmp_walk` (`none` models an error indication or
end-of-MIB). -/
structure Device where
  get : String → Option String
  next : String → Option (String × String)

/-- Consumable-name oid for slot `i` (snmp_utils.py line 84). -/
def nameOid (i : Nat) : String := "1.3.6.1.2.1.43.11.1.1.6.1." ++ toString i

/-- Consumable-level oid for slot `i` (snmp_utils.py line 85). -/
def levelOid (i : Nat) : String := "1.3.6.1.2.1.43.11.1.1.9.1." ++ toString i

/-- Consumable-maximum oid for slot `i` (snmp_utils.py line 86). -/
def maxOid (i : Nat) : String := "1.3.6.1.2.1.43.11.1.1.8.1." ++ toString i

/-- The `try: int(level); int(max_val) ... except: "Invalid"` block of
`get_printer_status_async` (snmp_utils.py lines 94-105): if either
string fails to parse the percent is "Invalid", otherwise it is
`slot_percent` of the parsed integers. -/
def slot_percent_str (level maxv : String) : String :=
  match pyInt level, pyInt maxv with
  | some l, some m => slot_percent l m
  | _, _ => "Invalid"

/-- One iteration of the slot loop in `get_printer_status_async`
(snmp_utils.py lines 83-114): query name, level and maximum for slot
`i`; `if name and level and max_val` skips the slot when any query
failed (`None`) or returned an empty string (both falsy in Python);
otherwise compute the percent, strip the name and upsert it into the
dict chosen by the toner/drum/other chain. -/
def processSlot (d : Device) (i : Nat) (acc : Snapshot) : Snapshot :=
  match d.get (nameOid i), d.get (levelOid i), d.get (maxOid i) with
  | some name, some level, some maxv =>
    if name.data.isEmpty || level.data.isEmpty || maxv.data.isEmpty then acc
    else
      let percent := slot_percent_str level maxv
      let label := strTrim name
      match categorize name with
      | SlotCategory.toner =>
          { acc with tonerCartridges := dictUpsert acc.tonerCartridges label percent }
      | SlotCategory.drum =>
          { acc with drumUnits := dictUpsert acc.drumUnits label percent }
      | SlotCategory.other =>
          { acc with other := dictUpsert acc.other label percent }
  | _, _, _ => acc

/-- The classifier-relevant part of `get_printer_status_async`
(snmp_utils.py lines 79-134): the slot loop over indices 1..9 followed
by the two alert walks and the `errors` assembly. The model, serial and
page-count queries only fill display fields never read by
`_evaluate_status` and are omitted. Every individual query failure
degrades a field; nothing here can raise. -/
def collect (d : Device) (fuel : Nat) : Snapshot :=
  let withSlots := [1, 2, 3, 4, 5, 6, 7, 8, 9].foldl
    (fun acc i => processSlot d i acc)
    { tonerCartridges := [], drumUnits := [], other := [], errors := [] }
  let descWalk := snmp_walk d.next "1.3.6.1.2.1.43.18.1.1.8" fuel
  let sevWalk := snmp_walk d.next "1.3.6.1.2.1.43.18.1.1.2" fuel
  { withSlots with errors := build_errors descWalk sevWalk }

/-- A device that answers nothing: every `snmp_get` times out and yields
`None`, every walk exchange yields an error indication — the observable
behaviour of a fully unreachable device. -/
def deadDevice : Device :=
  { get := fun _ => none
    next := fun _ => none }

/-! ## Claim theorems -/

/-- C1 (code bug): contrary to the claim, a device poll whose transport
fails entirely does NOT classify `Offline`. Since `snmp_get` and
`snmp_walk` catch every exception and degrade to `None`/`{}`,
`get_printer_status` cannot raise on a connection failure; polling a
fully unreachable device takes the success branch of
`_poll_all_printers` with an empty all-placeholder snapshot, and the
stored record classifies `OK` — for every cached record and every walk
budget. The `except`/`"Offline"` branch is unreachable by transport
failure. -/
theorem unreachable_device_classifies_ok (cached : PrinterInfo) (fuel : Nat) :
    collect deadDevice fuel =
      { tonerCartridges := [], drumUnits := [], other := [], errors := [] } ∧
    evaluate_status (pollUpdate cached (Except.ok (collect deadDevice fuel))) = "OK" := by
  have h : collect deadDevice fuel =
      { tonerCartridges := [], drumUnits := [], other := [], errors := [] } := by
    cases fuel <;> rfl
  refine ⟨h, ?_⟩
  rw [h]
  rfl

/-- C3: a snapshot containing an alert whose description matches neither
the paper-out pattern nor the toner-warning pattern always classifies
`Error`, whatever the other alerts and consumable readings are. -/
theorem unmatched_alert_forces_error (s : Snapshot) (e : String × String)
    (he : e ∈ s.errors) (hp : is_paper_out e.1 = false)
    (ht : is_toner_warning_desc e.1 = false) :
    evaluate_status s.toInfo = "Error" := by
  have hany : s.errors.any (fun x => !is_paper_out x.1 && !is_toner_warning_desc x.1) = true := by
    rw [List.any_eq_true]
    exact ⟨e, he, by simp [hp, ht]⟩
  simp [evaluate_status, Snapshot.toInfo, hany]

/-- Witness for C3: a single "Paper Jam" alert (matching neither pattern)
forces `Error`. -/
theorem unmatched_alert_forces_error_witness :
    evaluate_status (Snapshot.toInfo ⟨[("Black Toner", "80%")], [], [], [("Paper Jam", "Critical")]⟩) = "Error" :=
  unmatched_alert_forces_error ⟨[("Black Toner", "80%")], [], [], [("Paper Jam", "Critical")]⟩
    ("Paper Jam", "Critical") (by decide) (by decide) (by decide)

/-- C6: a slot whose parsed level is `-2` renders "Unknown" regardless of
the maximum; otherwise a non-positive maximum renders "N/A". -/
theorem sentinel_levels_percent (level maxv : Int) :
    (level = -2 → slot_percent level maxv = "Unknown") ∧
    (level ≠ -2 → maxv ≤ 0 → slot_percent level maxv = "N/A") := by
  constructor
  · intro h
    simp [slot_percent, h]
  · intro h1 h2
    rw [slot_percent, if_neg h1, if_neg (by omega)]

/-- Witness for C6 at level `-2` with positive maximum and at level `3`
with maximum `0`. -/
theorem sentinel_levels_percent_witness :
    slot_percent (-2) 7 = "Unknown" ∧ slot_percent 3 0 = "N/A" :=
  ⟨(sentinel_levels_percent (-2) 7).1 rfl,
   (sentinel_levels_percent 3 0).2 (by decide) (by decide)⟩

/-- C9: slot-name category matching is ordered: a stripped, lowercased
name containing "toner" always files under the toner dict (even if it
also contains "drum"); "drum" without "toner" files under drums; all
remaining names file under the misc dict. -/
theorem toner_category_precedence (name : String) :
    (strContainsSub (strToLower (strTrim name)) "toner" = true →
       categorize name = SlotCategory.toner) ∧
    (strContainsSub (strToLower (strTrim name)) "toner" = false →
       strContainsSub (strToLower (strTrim name)) "drum" = true →
       categorize name = SlotCategory.drum) ∧
    (strContainsSub (strToLower (strTrim name)) "toner" = false →
       strContainsSub (strToLower (strTrim name)) "drum" = false →
       categorize name = SlotCategory.other) := by
  refine ⟨fun h => ?_, fun h1 h2 => ?_, fun h1 h2 => ?_⟩
  · simp [categorize, h]
  · simp [categorize, h1, h2]
  · simp [categorize, h1, h2]

/-- Witness for C9: a name containing both "toner" and "drum" files under
toner; "drum" alone files under drums; neither files under misc. -/
theorem toner_category_precedence_witness :
    categorize " Black Toner Drum " = SlotCategory.toner ∧
    categorize "Drum Unit" = SlotCategory.drum ∧
    categorize "Waste Box" = SlotCategory.other :=
  ⟨(toner_category_precedence " Black Toner Drum ").1 (by decide),
   (toner_category_precedence "Drum Unit").2.1 (by decide) (by decide),
   (toner_category_precedence "Waste Box").2.2 (by decide) (by decide)⟩

/-- C10: the low-level check skips every reading whose value is not a
percent string with a parsable integer (such as "Unknown", "N/A",
"Invalid"), so a snapshot with no alerts and only such readings
classifies `OK`. -/
theorem non_numeric_readings_classify_ok (s : Snapshot)
    (he : s.errors = [])
    (hnn : ∀ kv ∈ s.tonerCartridges ++ s.drumUnits ++ s.other, percent_value kv.2 = none) :
    evaluate_status s.toInfo = "OK" := by
  have hlow : ∀ kv ∈ s.tonerCartridges ++ s.drumUnits ++ s.other, low_percent kv.2 = false := by
    intro kv hkv
    simp [low_percent, hnn kv hkv]
  have h1 : any_toner_percent_warning s.tonerCartridges = false := by
    simp only [any_toner_percent_warning, List.any_eq_false]
    intro kv hkv
    simp [hlow kv (by simp [hkv])]
  have h2 : any_toner_percent_warning s.drumUnits = false := by
    simp only [any_toner_percent_warning, List.any_eq_false]
    intro kv hkv
    simp [hlow kv (by simp [hkv])]
  have h3 : any_toner_percent_warning s.other = false := by
    simp only [any_toner_percent_warning, List.any_eq_false]
    intro kv hkv
    simp [hlow kv (by simp [hkv])]
  simp [evaluate_status, Snapshot.toInfo, he, h1, h2, h3]

/-- Witness for C10: "Unknown", "N/A", "Invalid" and "abc%" readings with
no alerts classify `OK`. -/
theorem non_numeric_readings_classify_ok_witness :
    evaluate_status (Snapshot.toInfo
      ⟨[("Black Toner", "Unknown")], [("Drum", "N/A")], [("Waste", "Invalid"), ("Belt", "abc%")], []⟩) = "OK" :=
  non_numeric_readings_classify_ok
    ⟨[("Black Toner", "Unknown")], [("Drum", "N/A")], [("Waste", "Invalid"), ("Belt", "abc%")], []⟩
    (by decide) (by decide)

/-- C5: with zero alerts, one consumable reading whose percent parses to
exactly 5 classifies `Warning`, and all readings parsing to at least 6
classify `OK`: the threshold boundary is at 5 inclusive. -/
theorem low_consumable_threshold :
    (∀ (s : Snapshot) (kv : String × String), s.errors = [] →
       kv ∈ s.tonerCartridges ++ s.drumUnits ++ s.other →
       percent_value kv.2 = some 5 → evaluate_status s.toInfo = "Warning") ∧
    (∀ s : Snapshot, s.errors = [] →
       (∀ kv ∈ s.tonerCartridges ++ s.drumUnits ++ s.other,
          ∃ n : Int, percent_value kv.2 = some n ∧ 6 ≤ n) →
       evaluate_status s.toInfo = "OK") := by
  constructor
  · intro s kv he hmem h5
    have hlow : low_percent kv.2 = true := by simp [low_percent, h5]
    rcases List.mem_append.mp hmem with h | h
    · rcases List.mem_append.mp h with h | h
      · have hA : any_toner_percent_warning s.tonerCartridges = true := by
          rw [any_toner_percent_warning, List.any_eq_true]
          exact ⟨kv, h, hlow⟩
        simp [evaluate_status, Snapshot.toInfo, he, hA]
      · have hA : any_toner_percent_warning s.drumUnits = true := by
          rw [any_toner_percent_warning, List.any_eq_true]
          exact ⟨kv, h, hlow⟩
        simp [evaluate_status, Snapshot.toInfo, he, hA]
    · have hA : any_toner_percent_warning s.other = true := by
        rw [any_toner_percent_warning, List.any_eq_true]
        exact ⟨kv, h, hlow⟩
      simp [evaluate_status, Snapshot.toInfo, he, hA]
  · intro s he hge
    have hlow : ∀ kv ∈ s.tonerCartridges ++ s.drumUnits ++ s.other, low_percent kv.2 = false := by
      intro kv hkv
      obtain ⟨n, hn, h6⟩ := hge kv hkv
      simp only [low_percent, hn]
      simp only [decide_eq_false_iff_not]
      omega
    have h1 : any_toner_percent_warning s.tonerCartridges = false := by
      simp only [any_toner_percent_warning, List.any_eq_false]
      intro kv hkv
      simp [hlow kv (by simp [hkv])]
    have h2 : any_toner_percent_warning s.drumUnits = false := by
      simp only [any_toner_percent_warning, List.any_eq_false]
      intro kv hkv
      simp [hlow kv (by simp [hkv])]
    have h3 : any_toner_percent_warning s.other = false := by
      simp only [any_toner_percent_warning, List.any_eq_false]
      intro kv hkv
      simp [hlow kv (by simp [hkv])]
    simp [evaluate_status, Snapshot.toInfo, he, h1, h2, h3]

/-- Witness for C5: a lone "5%" toner reading with no alerts gives
`Warning`; a lone "6%" reading gives `OK`. -/
theorem low_consumable_threshold_witness :
    evaluate_status (Snapshot.toInfo ⟨[("Black Toner", "5%")], [], [], []⟩) = "Warning" ∧
    evaluate_status (Snapshot.toInfo ⟨[("Black Toner", "6%")], [], [], []⟩) = "OK" :=
  ⟨low_consumable_threshold.1 ⟨[("Black Toner", "5%")], [], [], []⟩ ("Black Toner", "5%")
     (by decide) (by decide) (by decide),
   low_consumable_threshold.2 ⟨[("Black Toner", "6%")], [], [], []⟩ (by decide)
     (by intro kv hkv
         simp only [List.append_nil, List.mem_singleton] at hkv
         subst hkv
         exact ⟨6, by decide, by decide⟩)⟩

/-- C4 counterexample: the alert "Paper tray toner low" matches the
paper-out pattern (it is the snapshot's only alert, and there are no
consumable readings at all), yet the snapshot classifies `Warning`, not
`OK`, because the description also matches the toner-warning pattern. -/
theorem paper_out_only_counterexample :
    ((⟨[], [], [], [("Paper tray toner low", "4")]⟩ : Snapshot).errors.all
       fun e => is_paper_out e.1) = true ∧
    evaluate_status (Snapshot.toInfo ⟨[], [], [], [("Paper tray toner low", "4")]⟩) = "Warning" := by
  decide

/-- C4 (amended): a snapshot whose alerts all match the paper-out pattern
and none of which also matches the toner-warning pattern, with every
consumable reading parsing to a percent above the threshold, classifies
`OK`: such paper-out alerts never move the status away from `OK`. -/
theorem paper_out_alerts_classify_ok (s : Snapshot)
    (halerts : ∀ e ∈ s.errors, is_paper_out e.1 = true ∧ is_toner_warning_desc e.1 = false)
    (hcons : ∀ kv ∈ s.tonerCartridges ++ s.drumUnits ++ s.other,
       ∃ n : Int, percent_value kv.2 = some n ∧ 5 < n) :
    evaluate_status s.toInfo = "OK" := by
  have herr : s.errors.any (fun e => !is_paper_out e.1 && !is_toner_warning_desc e.1) = false := by
    simp only [List.any_eq_false]
    intro e he
    simp [(halerts e he).1]
  have htw : s.errors.any (fun e => is_toner_warning_desc e.1) = false := by
    simp only [List.any_eq_false]
    intro e he
    simp [(halerts e he).2]
  have hlow : ∀ kv ∈ s.tonerCartridges ++ s.drumUnits ++ s.other, low_percent kv.2 = false := by
    intro kv hkv
    obtain ⟨n, hn, h5⟩ := hcons kv hkv
    simp only [low_percent, hn]
    simp only [decide_eq_false_iff_not]
    omega
  have h1 : any_toner_percent_warning s.tonerCartridges = false := by
    simp only [any_toner_percent_warning, List.any_eq_false]
    intro kv hkv
    simp [hlow kv (by simp [hkv])]
  have h2 : any_toner_percent_warning s.drumUnits = false := by
    simp only [any_toner_percent_warning, List.any_eq_false]
    intro kv hkv
    simp [hlow kv (by simp [hkv])]
  have h3 : any_toner_percent_warning s.other = false := by
    simp only [any_toner_percent_warning, List.any_eq_false]
    intro kv hkv
    simp [hlow kv (by simp [hkv])]
  simp [evaluate_status, Snapshot.toInfo, herr, htw, h1, h2, h3]

/-- Witness for C4 (amended): a pure "Paper out" alert with a healthy
toner reading classifies `OK`. -/
theorem paper_out_alerts_classify_ok_witness :
    evaluate_status (Snapshot.toInfo ⟨[("Black Toner", "80%")], [], [], [("Paper out", "4")]⟩) = "OK" :=
  paper_out_alerts_classify_ok ⟨[("Black Toner", "80%")], [], [], [("Paper out", "4")]⟩
    (by decide)
    (by intro kv hkv
        simp only [List.append_nil, List.mem_singleton] at hkv
        subst hkv
        exact ⟨80, by decide, by decide⟩)

/-- Helper: round-half-to-even of `num / den` is nonnegative for
nonnegative `num` and positive `den`. -/
theorem pyRound_frac_nonneg (num den : Int) (hden : 0 < den) (h0 : 0 ≤ num) :
    0 ≤ pyRound_frac num den := by
  have hfd : Int.fdiv num den = num / den := Int.fdiv_eq_ediv num (by omega)
  have hq0 : 0 ≤ num / den := Int.ediv_nonneg h0 (by omega)
  simp only [pyRound_frac, hfd]
  obtain ⟨q, hq⟩ : ∃ q, num / den = q := ⟨_, rfl⟩
  rw [hq] at hq0 ⊢
  obtain ⟨r, hr⟩ : ∃ r, num - q * den = r := ⟨_, rfl⟩
  rw [hr]
  split_ifs <;> omega

/-- Helper: round-half-to-even of `num / den` is at most `K` whenever
`num ≤ K * den` (for `0 ≤ num` and `den > 0`). -/
theorem pyRound_frac_le (num den K : Int) (hden : 0 < den)
    (h0 : 0 ≤ num) (hK : num ≤ K * den) :
    pyRound_frac num den ≤ K := by
  have hdne : den ≠ 0 := by omega
  have hfd : Int.fdiv num den = num / den := Int.fdiv_eq_ediv num (by omega)
  have hr0 : 0 ≤ num % den := Int.emod_nonneg num hdne
  have hrlt : num % den < den := Int.emod_lt_of_pos num hden
  have hqK : num / den ≤ K := by
    have h := Int.ediv_le_ediv hden hK
    rwa [Int.mul_ediv_cancel K hdne] at h
  have hrw : num - num / den * den = num % den := by
    rw [Int.emod_def]
    ring
  have hsum : num % den + den * (num / den) = num := Int.emod_add_ediv num den
  simp only [pyRound_frac, hfd, hrw]
  obtain ⟨q, hq⟩ : ∃ q, num / den = q := ⟨_, rfl⟩
  obtain ⟨r, hr⟩ : ∃ r, num % den = r := ⟨_, rfl⟩
  rw [hq] at hqK hsum ⊢
  rw [hr] at hr0 hrlt hsum ⊢
  rcases lt_or_eq_of_le hqK with hlt | heq
  · clear hsum
    split_ifs <;> omega
  · rw [heq] at hsum ⊢
    have hrle : r ≤ 0 := by linarith
    clear hsum hK
    split_ifs <;> omega

/-- Helper: `pow2` agrees with integer exponentiation. -/
theorem pow2_eq (k : Nat) : pow2 k = (2 : Int) ^ k := by
  rw [pow2]
  push_cast
  ring

/-- Helper: `pow2` is positive. -/
theorem pow2_pos (k : Nat) : (0 : Int) < pow2 k := by
  rw [pow2_eq]
  positivity

/-- Helper: the scaled rounding of a nonnegative value is nonnegative. -/
theorem roundAtExp_nonneg (a b u : Int) (hb : 0 < b) (ha : 0 ≤ a) :
    0 ≤ roundAtExp a b u := by
  rw [roundAtExp]
  split_ifs
  · exact pyRound_frac_nonneg _ _ (mul_pos hb (pow2_pos _)) ha
  · exact pyRound_frac_nonneg _ _ hb (mul_nonneg ha (le_of_lt (pow2_pos _)))

/-- Helper: the fuelled binary logarithm brackets its argument,
`2 ^ log ≤ n < 2 ^ (log + 1)`, given enough fuel. -/
theorem log2fuel_spec (f : Nat) : ∀ n : Nat, n ≤ f → 1 ≤ n →
    2 ^ log2fuel f n ≤ n ∧ n < 2 ^ (log2fuel f n + 1) := by
  induction f with
  | zero =>
    intro n hf h1
    omega
  | succ f ih =>
    intro n hf h1
    rw [log2fuel]
    by_cases h2 : 2 ≤ n
    · rw [if_pos h2]
      have hhalf := ih (n / 2) (by omega) (by omega)
      obtain ⟨hlo, hhi⟩ := hhalf
      constructor
      · calc 2 ^ (log2fuel f (n / 2) + 1) = 2 ^ log2fuel f (n / 2) * 2 := by
              rw [pow_succ]
          _ ≤ (n / 2) * 2 := Nat.mul_le_mul_right 2 hlo
          _ ≤ n := by omega
      · have : n / 2 + 1 ≤ 2 ^ (log2fuel f (n / 2) + 1) := hhi
        calc n ≤ (n / 2) * 2 + 1 := by omega
          _ ≤ (2 ^ (log2fuel f (n / 2) + 1) - 1) * 2 + 1 := by
              have := Nat.mul_le_mul_right 2 (show n / 2 ≤ 2 ^ (log2fuel f (n / 2) + 1) - 1 by omega)
              omega
          _ < 2 ^ (log2fuel f (n / 2) + 1 + 1) := by
              have hp : 1 ≤ 2 ^ (log2fuel f (n / 2) + 1) := Nat.one_le_two_pow
              rw [pow_succ]
              omega
    · rw [if_neg h2]
      have : n = 1 := by omega
      subst this
      simp
/-- Helper: `natLog2` brackets its positive argument. -/
theorem natLog2_spec (n : Nat) (h1 : 1 ≤ n) :
    2 ^ natLog2 n ≤ n ∧ n < 2 ^ (natLog2 n + 1) :=
  log2fuel_spec n n le_rfl h1

/-- Helper: the corrected estimate `ratLog2 a b` really is a lower
binary-logarithm bound: `2 ^ ratLog2 a b ≤ a / b` for positive `a`, `b`. -/
theorem le2pow_ratLog2 (a b : Int) (ha : 0 < a) (hb : 0 < b) :
    le2pow (ratLog2 a b) a b = true := by
  obtain ⟨na, rfl⟩ : ∃ n : Nat, (n : Int) = a := ⟨a.toNat, Int.toNat_of_nonneg (le_of_lt ha)⟩
  obtain ⟨nb, rfl⟩ : ∃ n : Nat, (n : Int) = b := ⟨b.toNat, Int.toNat_of_nonneg (le_of_lt hb)⟩
  have hna1 : 1 ≤ na := by exact_mod_cast ha
  have hnb1 : 1 ≤ nb := by exact_mod_cast hb
  have hsa := natLog2_spec na hna1
  have hsb := natLog2_spec nb hnb1
  simp only [ratLog2]
  rw [show ((na : Int)).toNat = na by omega, show ((nb : Int)).toNat = nb by omega]
  by_cases htest : le2pow ((natLog2 na : Int) - (natLog2 nb : Int)) ↑na ↑nb
  · rw [if_pos htest]
    exact htest
  · rw [if_neg htest]
    rw [le2pow]
    split_ifs with hs
    · rw [decide_eq_true_eq]
      have hlab : natLog2 nb + 1 ≤ natLog2 na := by omega
      rw [show ((natLog2 na : Int) - (natLog2 nb : Int) - 1).toNat
            = natLog2 na - natLog2 nb - 1 by omega]
      have hnat : nb * 2 ^ (natLog2 na - natLog2 nb - 1) ≤ na := by
        have h2 : 2 ^ (natLog2 nb + 1) * 2 ^ (natLog2 na - natLog2 nb - 1)
            = 2 ^ natLog2 na := by
          rw [← pow_add]
          congr 1
          omega
        have h3 : nb ≤ 2 ^ (natLog2 nb + 1) - 1 := by omega
        calc nb * 2 ^ (natLog2 na - natLog2 nb - 1)
            ≤ (2 ^ (natLog2 nb + 1) - 1) * 2 ^ (natLog2 na - natLog2 nb - 1) :=
              Nat.mul_le_mul_right _ h3
          _ = 2 ^ (natLog2 nb + 1) * 2 ^ (natLog2 na - natLog2 nb - 1)
              - 2 ^ (natLog2 na - natLog2 nb - 1) := by
              rw [Nat.sub_mul, one_mul]
          _ = 2 ^ natLog2 na - 2 ^ (natLog2 na - natLog2 nb - 1) := by rw [h2]
          _ ≤ na := by
              have hp : 1 ≤ 2 ^ (natLog2 na - natLog2 nb - 1) := Nat.one_le_two_pow
              omega
      rw [pow2]
      exact_mod_cast hnat
    · rw [decide_eq_true_eq]
      have hlab : natLog2 na ≤ natLog2 nb := by omega
      rw [show (-((natLog2 na : Int) - (natLog2 nb : Int) - 1)).toNat
            = natLog2 nb + 1 - natLog2 na by omega]
      have hnat : nb ≤ na * 2 ^ (natLog2 nb + 1 - natLog2 na) := by
        have h2 : 2 ^ natLog2 na * 2 ^ (natLog2 nb + 1 - natLog2 na)
            = 2 ^ (natLog2 nb + 1) := by
          rw [← pow_add]
          congr 1
          omega
        calc nb ≤ 2 ^ (natLog2 nb + 1) := le_of_lt hsb.2
          _ = 2 ^ natLog2 na * 2 ^ (natLog2 nb + 1 - natLog2 na) := h2.symm
          _ ≤ na * 2 ^ (natLog2 nb + 1 - natLog2 na) :=
              Nat.mul_le_mul_right _ hsa.1
      rw [pow2]
      exact_mod_cast hnat

/-- Helper: `a ≤ 2 ^ K * b` bounds the rational logarithm:
`ratLog2 a b ≤ K` (for `0 ≤ a` and `b > 0`). -/
theorem ratLog2_le (a b : Int) (K : Nat) (ha : 0 ≤ a) (hb : 0 < b)
    (h : a ≤ 2 ^ K * b) : ratLog2 a b ≤ K := by
  rcases eq_or_lt_of_le ha with h0 | hpos
  · rw [← h0]
    simp only [ratLog2]
    rw [show ((0 : Int)).toNat = 0 by omega, show natLog2 0 = 0 from rfl]
    split_ifs <;> omega
  · by_contra hcon
    have he : (K : Int) < ratLog2 a b := by omega
    have hspec := le2pow_ratLog2 a b hpos hb
    rw [le2pow, if_pos (by omega : (0:Int) ≤ ratLog2 a b)] at hspec
    rw [decide_eq_true_eq, pow2_eq] at hspec
    have h1 : b * 2 ^ (ratLog2 a b).toNat ≤ 2 ^ K * b := le_trans hspec h
    have h2 : (2:Int) ^ (ratLog2 a b).toNat ≤ 2 ^ K := by
      have hb' : (0:Int) < b := hb
      nlinarith [h1]
    have h3 : (ratLog2 a b).toNat ≤ K :=
      (pow_le_pow_iff_right₀ (by norm_num : (1:Int) < 2)).mp h2
    omega

/-- Helper: the full binary64 pipeline for `round((l / m) * 100)` stays
in `[0, 100]` for `0 < l ≤ m`. -/
theorem pyFloatPercentPos_bounds (l m : Int) (hl : 0 < l) (hm : 0 < m)
    (hlm : l ≤ m) :
    0 ≤ pyFloatPercentPos l m ∧ pyFloatPercentPos l m ≤ 100 := by
  have he1 : ratLog2 l m ≤ 0 := by
    have := ratLog2_le l m 0 (le_of_lt hl) hm (by simpa using hlm)
    simpa using this
  have hu1 : fpExp l m < 0 := by
    rw [fpExp]
    apply max_lt <;> omega
  simp only [pyFloatPercentPos, if_neg (not_le.mpr hu1)]
  have hd1n : 0 ≤ roundAtExp l m (fpExp l m) :=
    roundAtExp_nonneg l m (fpExp l m) hm (le_of_lt hl)
  have hd1le : roundAtExp l m (fpExp l m) ≤ pow2 (-(fpExp l m)).toNat := by
    rw [roundAtExp, if_neg (by omega)]
    apply pyRound_frac_le _ _ _ hm (mul_nonneg (le_of_lt hl) (le_of_lt (pow2_pos _)))
    calc l * pow2 (-(fpExp l m)).toNat ≤ m * pow2 (-(fpExp l m)).toNat :=
          mul_le_mul_of_nonneg_right hlm (le_of_lt (pow2_pos _))
      _ = pow2 (-(fpExp l m)).toNat * m := mul_comm _ _
  have hb2 : (0:Int) < pow2 (-(fpExp l m)).toNat := pow2_pos _
  have ha2 : (0:Int) ≤ roundAtExp l m (fpExp l m) * 100 :=
    mul_nonneg hd1n (by norm_num)
  have ha2le : roundAtExp l m (fpExp l m) * 100
      ≤ 2 ^ 7 * pow2 (-(fpExp l m)).toNat := by
    calc roundAtExp l m (fpExp l m) * 100 ≤ pow2 (-(fpExp l m)).toNat * 100 :=
          mul_le_mul_of_nonneg_right hd1le (by norm_num)
      _ ≤ 2 ^ 7 * pow2 (-(fpExp l m)).toNat := by nlinarith [hb2]
  have he2 : ratLog2 (roundAtExp l m (fpExp l m) * 100) (pow2 (-(fpExp l m)).toNat) ≤ 7 :=
    ratLog2_le _ _ 7 ha2 hb2 ha2le
  have hu2 : fpExp (roundAtExp l m (fpExp l m) * 100) (pow2 (-(fpExp l m)).toNat) < 0 := by
    rw [fpExp]
    apply max_lt <;> omega
  rw [if_neg (not_le.mpr hu2)]
  have hd2n : 0 ≤ roundAtExp (roundAtExp l m (fpExp l m) * 100)
      (pow2 (-(fpExp l m)).toNat)
      (fpExp (roundAtExp l m (fpExp l m) * 100) (pow2 (-(fpExp l m)).toNat)) :=
    roundAtExp_nonneg _ _ _ hb2 ha2
  have hd2le : roundAtExp (roundAtExp l m (fpExp l m) * 100)
      (pow2 (-(fpExp l m)).toNat)
      (fpExp (roundAtExp l m (fpExp l m) * 100) (pow2 (-(fpExp l m)).toNat))
      ≤ 100 * pow2 (-(fpExp (roundAtExp l m (fpExp l m) * 100)
          (pow2 (-(fpExp l m)).toNat))).toNat := by
    rw [roundAtExp, if_neg (by omega)]
    apply pyRound_frac_le _ _ _ hb2 (mul_nonneg ha2 (le_of_lt (pow2_pos _)))
    calc roundAtExp l m (fpExp l m) * 100
          * pow2 (-(fpExp (roundAtExp l m (fpExp l m) * 100)
              (pow2 (-(fpExp l m)).toNat))).toNat
        ≤ pow2 (-(fpExp l m)).toNat * 100
          * pow2 (-(fpExp (roundAtExp l m (fpExp l m) * 100)
              (pow2 (-(fpExp l m)).toNat))).toNat := by
          apply mul_le_mul_of_nonneg_right _ (le_of_lt (pow2_pos _))
          exact mul_le_mul_of_nonneg_right hd1le (by norm_num)
      _ = 100 * pow2 (-(fpExp (roundAtExp l m (fpExp l m) * 100)
              (pow2 (-(fpExp l m)).toNat))).toNat
          * pow2 (-(fpExp l m)).toNat := by ring
  constructor
  · exact pyRound_frac_nonneg _ _ (pow2_pos _) hd2n
  · exact pyRound_frac_le _ _ 100 (pow2_pos _) hd2n hd2le

/-- Helper: the signed wrapper inherits the bounds for positive levels. -/
theorem pyFloatPercent_bounds (l m : Int) (hl : 0 < l) (hm : 0 < m)
    (hlm : l ≤ m) :
    0 ≤ pyFloatPercent l m ∧ pyFloatPercent l m ≤ 100 := by
  rw [pyFloatPercent, if_pos (le_of_lt hl)]
  exact pyFloatPercentPos_bounds l m hl hm hlm

-- Model validation, checked against CPython: half-way cases are decided
-- by the float representation error (57.5 is stored as 57.49999999999999
-- after `(23/40)*100`, and 54.5 as 54.50000000000001 after
-- `(109/200)*100`), while exactly representable ties round half-to-even.
example : pyFloatPercent 23 40 = 57 := by decide
example : pyFloatPercent 109 200 = 55 := by decide
example : pyFloatPercent 1 8 = 12 := by decide
example : pyFloatPercent 3 8 = 38 := by decide
example : pyFloatPercent 1 3 = 33 := by decide
example : pyFloatPercent 999 1000 = 100 := by decide
example : pyFloatPercent 1 200 = 0 := by decide
example : pyFloatPercent (-3) 100 = -3 := by decide
example : pyFloatPercent 200 100 = 200 := by decide

/-- C2 counterexample: level 200 and maximum 100 are valid positive
integers, the computed percent is "200%", and 200 is outside `[0, 100]`. -/
theorem percent_formula_counterexample :
    slot_percent 200 100 = "200%" ∧ ¬ pyFloatPercent 200 100 ≤ 100 := by
  decide

/-- C2 (amended): for positive level and maximum with level at most the
maximum, the slot percent is `round(level / maximum * 100)` evaluated in
the program's IEEE binary64 semantics, an integer in `[0, 100]`,
formatted with a trailing `%`. (Without `level ≤ maximum` the formula
and formatting still hold but the integer can exceed 100.) -/
theorem percent_formula_bounds (level maxv : Int)
    (hl : 0 < level) (hm : 0 < maxv) (hlm : level ≤ maxv) :
    slot_percent level maxv = toString (pyFloatPercent level maxv) ++ "%" ∧
    0 ≤ pyFloatPercent level maxv ∧ pyFloatPercent level maxv ≤ 100 := by
  have hb := pyFloatPercent_bounds level maxv hl hm hlm
  refine ⟨?_, hb.1, hb.2⟩
  rw [slot_percent, if_neg (by omega), if_pos hm]

/-- Witness for C2 at the spec's end-to-end scenario, level 18 of 100. -/
theorem percent_formula_bounds_witness :
    slot_percent 18 100 = toString (pyFloatPercent 18 100) ++ "%" ∧
    0 ≤ pyFloatPercent 18 100 ∧ pyFloatPercent 18 100 ≤ 100 :=
  percent_formula_bounds 18 100 (by decide) (by decide) (by decide)

/-- The alert description sub-tree queried by `get_printer_status_async`
(snmp_utils.py line 117). -/
def alertDescBase : String := "1.3.6.1.2.1.43.18.1.1.8"

/-- A simulated device for the alert-walk scenario: rows `.1 → "Jam"` and
`.2 → "Low Toner"` under the queried prefix, followed by a row in the
neighbouring `...1.1.9` sub-tree. -/
def demoGetNext (q : String) : Option (String × String) :=
  if q = alertDescBase then some (alertDescBase ++ ".1", "Jam")
  else if q = alertDescBase ++ ".1" then some (alertDescBase ++ ".2", "Low Toner")
  else if q = alertDescBase ++ ".2" then some ("1.3.6.1.2.1.43.18.1.1.9.1", "3")
  else none

/-- Severity rows for the walk scenario: row 1 is Critical ("3"), row 2
is Warning ("4"). -/
def demoSevWalk : List (String × String) :=
  [("1.3.6.1.2.1.43.18.1.1.2.1", "3"), ("1.3.6.1.2.1.43.18.1.1.2.2", "4")]

/-- C7: on the simulated two-row alert table the walk returns exactly the
two in-prefix rows (for any loop budget of at least three get-next
exchanges) and the collector assembles exactly two alert entries; in
general one walk step returns the accumulated results unchanged as soon
as the returned key no longer starts with the queried prefix, or an
error indication (`none`) is returned. -/
theorem alert_walk_terminates :
    (∀ fuel, 3 ≤ fuel →
       snmp_walk demoGetNext alertDescBase fuel =
         [(alertDescBase ++ ".1", "Jam"), (alertDescBase ++ ".2", "Low Toner")] ∧
       build_errors (snmp_walk demoGetNext alertDescBase fuel) demoSevWalk =
         [("Jam", "Critical"), ("Low Toner", "Warning")]) ∧
    (∀ (g : String → Option (String × String)) (base : String) (fuel : Nat)
       (cur : String) (results : List (String × String)) (oid val : String),
       g cur = some (oid, val) → strStartsWith oid base = false →
       snmp_walk_go g base (fuel + 1) cur results = results) ∧
    (∀ (g : String → Option (String × String)) (base : String) (fuel : Nat)
       (cur : String) (results : List (String × String)),
       g cur = none → snmp_walk_go g base (fuel + 1) cur results = results) := by
  refine ⟨?_, ?_, ?_⟩
  · intro fuel hf
    obtain ⟨k, rfl⟩ : ∃ k, fuel = k + 3 := ⟨fuel - 3, by omega⟩
    exact ⟨rfl, rfl⟩
  · intro g base fuel cur results oid val hg hpre
    simp [snmp_walk_go, hg, hpre]
  · intro g base fuel cur results hg
    simp [snmp_walk_go, hg]

/-- Witness for C7: the walk at exactly three get-next exchanges, one
step from an out-of-prefix response, and one step from an error
indication. -/
theorem alert_walk_terminates_witness :
    snmp_walk demoGetNext alertDescBase 3 =
      [(alertDescBase ++ ".1", "Jam"), (alertDescBase ++ ".2", "Low Toner")] ∧
    snmp_walk_go demoGetNext alertDescBase (4 + 1) (alertDescBase ++ ".2") [] = [] ∧
    snmp_walk_go demoGetNext alertDescBase (0 + 1) "7" [] = [] :=
  ⟨(alert_walk_terminates.1 3 (by decide)).1,
   alert_walk_terminates.2.1 demoGetNext alertDescBase 4 (alertDescBase ++ ".2") []
     "1.3.6.1.2.1.43.18.1.1.9.1" "3" (by decide) (by decide),
   alert_walk_terminates.2.2 demoGetNext alertDescBase 0 "7" [] (by decide)⟩

/-- Helper: upserting a key makes it look up to the new value. -/
theorem assocLookup_dictUpsert_self (m : List (String × String)) (k v : String) :
    assocLookup (dictUpsert m k v) k = some v := by
  induction m with
  | nil => simp [dictUpsert, assocLookup]
  | cons hd t ih =>
    obtain ⟨k', v'⟩ := hd
    by_cases h : k' = k
    · simp [dictUpsert, h, assocLookup]
    · simp [dictUpsert, h, assocLookup, ih]

/-- Helper: upserting one key leaves lookups of other keys unchanged. -/
theorem assocLookup_dictUpsert_ne (m : List (String × String)) (k v d : String)
    (hne : d ≠ k) : assocLookup (dictUpsert m k v) d = assocLookup m d := by
  induction m with
  | nil =>
    simp [dictUpsert, assocLookup, Ne.symm hne]
  | cons hd t ih =>
    obtain ⟨k', v'⟩ := hd
    by_cases h : k' = k
    · simp [dictUpsert, h, assocLookup, Ne.symm hne]
    · simp [dictUpsert, h, assocLookup, ih]

/-- Helper: upserting one key leaves the entry count of other keys
unchanged. -/
theorem countKey_dictUpsert_ne (m : List (String × String)) (k v d : String)
    (hne : d ≠ k) : countKey (dictUpsert m k v) d = countKey m d := by
  induction m with
  | nil =>
    simp [dictUpsert, countKey, Ne.symm hne]
  | cons hd t ih =>
    obtain ⟨k', v'⟩ := hd
    by_cases h : k' = k
    · simp [dictUpsert, h, countKey]
    · simp [dictUpsert, h, countKey, ih]

/-- Helper: upsert preserves "each key occurs at most once". -/
theorem countKey_dictUpsert_le_one (m : List (String × String)) (k v d : String)
    (h : countKey m d ≤ 1) : countKey (dictUpsert m k v) d ≤ 1 := by
  induction m with
  | nil =>
    simp only [dictUpsert, countKey]
    split_ifs <;> omega
  | cons hd t ih =>
    obtain ⟨k', v'⟩ := hd
    simp only [countKey] at h
    by_cases hkk : k' = k
    · simp only [dictUpsert, if_pos hkk, countKey]
      exact h
    · simp only [dictUpsert, if_neg hkk, countKey]
      by_cases hkd : k' = d
      · have hdk : d ≠ k := fun hh => hkk (hkd.trans hh)
        rw [countKey_dictUpsert_ne t k v d hdk]
        rw [if_pos hkd] at h ⊢
        omega
      · rw [if_neg hkd] at h ⊢
        have := ih (by omega)
        omega

/-- Helper: a successful lookup means the key occurs at least once. -/
theorem assocLookup_some_countKey_pos (m : List (String × String)) (d v : String)
    (h : assocLookup m d = some v) : 1 ≤ countKey m d := by
  induction m with
  | nil => simp [assocLookup] at h
  | cons hd t ih =>
    obtain ⟨k', v'⟩ := hd
    by_cases hk : k' = d
    · simp only [countKey, if_pos hk]
      omega
    · simp only [assocLookup, if_neg hk] at h
      simp only [countKey, if_neg hk]
      have := ih h
      omega

/-- Helper: when no row carries description `d`, the assembly loop leaves
lookups of `d` in the accumulator unchanged. -/
theorem build_errors_go_lookup_none (sev rows : List (String × String)) :
    ∀ (acc : List (String × String)) (d : String), lastOidWith rows d = none →
      assocLookup (build_errors_go sev acc rows) d = assocLookup acc d := by
  induction rows with
  | nil =>
    intro acc d _
    rfl
  | cons row t ih =>
    intro acc d hlast
    have hsplit : lastOidWith t d = none ∧ ¬(row.2 = d) := by
      simp only [lastOidWith] at hlast
      rcases h : lastOidWith t d with _ | o
      · rw [h] at hlast
        by_cases hd : row.2 = d
        · rw [if_pos hd] at hlast
          exact absurd hlast (by simp)
        · exact ⟨rfl, hd⟩
      · rw [h] at hlast
        exact absurd hlast (by simp)
    simp only [build_errors_go]
    rw [ih _ _ hsplit.1,
      assocLookup_dictUpsert_ne _ _ _ _ (fun hh => hsplit.2 hh.symm)]

/-- Helper: the assembled errors dict maps description `d` to the
severity label of the LAST description row carrying `d`. -/
theorem build_errors_go_lookup_some (sev rows : List (String × String)) :
    ∀ (acc : List (String × String)) (d o : String), lastOidWith rows d = some o →
      assocLookup (build_errors_go sev acc rows) d = some (severityLabelFor sev o) := by
  induction rows with
  | nil =>
    intro acc d o h
    simp [lastOidWith] at h
  | cons row t ih =>
    intro acc d o hlast
    simp only [build_errors_go]
    rcases h : lastOidWith t d with _ | o'
    · simp only [lastOidWith, h] at hlast
      by_cases hd : row.2 = d
      · rw [if_pos hd] at hlast
        obtain rfl : row.1 = o := by injection hlast
        rw [build_errors_go_lookup_none sev t _ d h, ← hd]
        exact assocLookup_dictUpsert_self _ _ _
      · rw [if_neg hd] at hlast
        exact absurd hlast (by simp)
    · simp only [lastOidWith, h] at hlast
      obtain rfl : o' = o := by injection hlast
      exact ih _ _ _ h

/-- Helper: the assembly loop keeps every description key unique. -/
theorem build_errors_go_countKey_le_one (sev rows : List (String × String)) :
    ∀ (acc : List (String × String)) (d : String), countKey acc d ≤ 1 →
      countKey (build_errors_go sev acc rows) d ≤ 1 := by
  induction rows with
  | nil =>
    intro acc d h
    exact h
  | cons row t ih =>
    intro acc d h
    simp only [build_errors_go]
    exact ih _ _ (countKey_dictUpsert_le_one _ _ _ _ h)

/-- C8: alert descriptions are unique keys of the assembled errors dict:
whenever some description row carries description `d` (with `oid` the
last such row), the dict holds exactly one entry for `d`, whose severity
label comes from that last row — so two rows with the same description
collapse into one reported alert. -/
theorem duplicate_descriptions_collapse (descWalk sevWalk : List (String × String))
    (d oid : String) (hlast : lastOidWith descWalk d = some oid) :
    assocLookup (build_errors descWalk sevWalk) d = some (severityLabelFor sevWalk oid) ∧
    countKey (build_errors descWalk sevWalk) d = 1 := by
  simp only [build_errors]
  have hl := build_errors_go_lookup_some sevWalk descWalk [] d oid hlast
  have hle := build_errors_go_countKey_le_one sevWalk descWalk [] d (by simp [countKey])
  have hge := assocLookup_some_countKey_pos _ d _ hl
  exact ⟨hl, by omega⟩

/-- Description walk with a duplicated description "Jam" on rows 1 and 2. -/
def dupDescWalk : List (String × String) :=
  [("1.3.6.1.2.1.43.18.1.1.8.1", "Jam"), ("1.3.6.1.2.1.43.18.1.1.8.2", "Jam")]

/-- Severity walk for the duplicated-description scenario: row 1 Critical,
row 2 Warning. -/
def dupSevWalk : List (String × String) :=
  [("1.3.6.1.2.1.43.18.1.1.2.1", "3"), ("1.3.6.1.2.1.43.18.1.1.2.2", "4")]

/-- Witness for C8: two "Jam" rows collapse to one entry whose severity
("Warning", code "4") comes from the later row 2, not row 1. -/
theorem duplicate_descriptions_collapse_witness :
    assocLookup (build_errors dupDescWalk dupSevWalk) "Jam" =
      some (severityLabelFor dupSevWalk "1.3.6.1.2.1.43.18.1.1.8.2") ∧
    countKey (build_errors dupDescWalk dupSevWalk) "Jam" = 1 :=
  duplicate_descriptions_collapse dupDescWalk dupSevWalk "Jam"
    "1.3.6.1.2.1.43.18.1.1.8.2" (by decide)

end TonerTrack
